import Mathlib

/-!
Shallow embedding of the core of the BanVic analytics dashboard
(src/app.py): heuristic column guessing, cell parsing, the filter
pipeline (date / branch / client), scalar KPIs, the CSV load fallback
chain and the top-N agency ranking.  Timestamps are modelled as minutes
since an arbitrary epoch (an Int; none models NaT), amounts as Option ℚ
(none models NaN), raw id cells as Option String (none models a missing
cell).  Python floats carry exact decimal CSV values here, so ℚ is the
faithful carrier for the arithmetic the claims are about.
-/

namespace BanVic

/-- One canonical transaction record, as derived in src/app.py lines
341-349: parsed timestamp, parsed amount, the raw branch and client id
cells, and the normalized approval flag. -/
structure TxRec where
  dt : Option Int
  amt : Option ℚ
  branch_ref : Option String
  client_ref : Option String
  approved : Bool
deriving DecidableEq, Repr

/-- A reference table (agencias / clientes) reduced to its (id, display
name) pairs, i.e. the two columns the filter blocks of src/app.py use.
none models the table being absent (file not found). -/
abbrev RefTable := List (String × String)

/-- ASCII lower-casing of one character, the part of str.lower that the
keyword lists of src/app.py exercise (they are pure ASCII). -/
def lowerChar (c : Char) : Char :=
  if c.isUpper then Char.ofNat (c.toNat + 32) else c

/-- Does the needle occur at the head of the haystack? -/
def leadMatch : List Char → List Char → Bool
  | [], _ => true
  | _ :: _, [] => false
  | n :: ns, h :: hs => n == h && leadMatch ns hs

/-- Substring search: python s1 in s2 over char lists. -/
def subSearch (needle : List Char) : List Char → Bool
  | [] => leadMatch needle []
  | h :: hs => leadMatch needle (h :: hs) || subSearch needle hs

/-- python kw in c.lower() (src/app.py line 119): the keyword is matched
verbatim against the lower-cased column name. -/
def kwInCol (kw c : String) : Bool :=
  subSearch kw.data (c.data.map lowerChar)

/-- guess_col (src/app.py lines 114-121): scan the keyword list in
priority order, inside it the columns in table order, return the first
column whose lower-cased name contains the keyword; if no keyword
matches any column fall back to the first column (none for a table with
no columns, which pd.read_csv never produces). -/
def guess_col (cols : List String) (keywords : List String) : Option String :=
  match keywords with
  | [] => cols.head?
  | kw :: rest =>
      match cols.find? (fun c => kwInCol kw c) with
      | some c => some c
      | none => guess_col cols rest

/-- The same heuristic written the way the spec states it: the first
keyword (in priority order) that matches any column yields that match,
otherwise the first column. Compared against guess_col below. -/
def guessColSpec (cols keywords : List String) : Option String :=
  match keywords.findSome? (fun kw => cols.find? (fun c => kwInCol kw c)) with
  | some c => some c
  | none => cols.head?

/-- Keyword list for the date role (src/app.py line 334). -/
def date_keywords : List String :=
  ["data", "date", "dt", "timestamp", "created", "datahora", "datetime"]

/-- Keyword list for the amount role (src/app.py line 335). -/
def amount_keywords : List String :=
  ["valor", "amount", "vlr", "montante", "price", "total", "value"]

/-- Keyword list for the branch id role (src/app.py line 336). -/
def agency_keywords : List String :=
  ["agencia", "branch", "agency", "branch_id", "cod_agencia", "id_agencia"]

/-- Keyword list for the client id role (src/app.py line 337). -/
def client_keywords : List String :=
  ["cliente", "client", "customer", "cust_id", "id_cliente", "cod_cliente",
   "cpf", "cnpj", "documento"]

/-- Keyword list for the status role (src/app.py line 338). -/
def status_keywords : List String :=
  ["status", "situacao", "resultado", "aprov", "approved", "estado"]

/-- Minutes in one day. date_input values are calendar days; the code
turns them into midnight instants before comparing (src/app.py 398-401),
modelled as multiplication by this constant. -/
def minutesPerDay : Int := 1440

/-- The date filter block (src/app.py lines 397-402): when a two-element
date range (s, e) in calendar days is submitted, keep the rows whose
parsed timestamp lies between midnight of day s and midnight of day e;
a NaT timestamp fails both pandas comparisons, so it is dropped. The
tz_localize decoration on both bounds is irrelevant to the order used
here and is not modelled. -/
def dateFilter (df : List TxRec) (range : Option (Int × Int)) : List TxRec :=
  match range with
  | none => df
  | some (s, e) =>
      df.filter fun r =>
        match r.dt with
        | some t => decide (minutesPerDay * s ≤ t) && decide (t ≤ minutesPerDay * e)
        | none => false

/-- agencias.loc[name == sel, id].unique() and its clientes analogue
(src/app.py lines 407 and 420): every id whose display name equals the
selection. (.unique() only deduplicates, which changes neither
membership nor emptiness, so it is omitted.) -/
def resolveIds (tbl : RefTable) (sel : String) : List String :=
  (tbl.filter fun p => p.2 == sel).map Prod.fst

/-- The branch filter block (src/app.py lines 404-413). "Todas" is the
no-filter sentinel. With a reference table present (and its name and id
columns resolved, which guess_col guarantees for any loadable table) the
selection resolves to the id set; a nonempty set filters by membership,
an empty one falls back to literal comparison of the raw id against the
selection; with no table the literal comparison is used directly. A NaN
id cell is stringified by astype(str) to a value equal to no display
name, modelled as none matching nothing. -/
def branchFilter (df : List TxRec) (sel : String) (agTbl : Option RefTable) :
    List TxRec :=
  if sel = "Todas" then df
  else
    match agTbl with
    | some tbl =>
        if (resolveIds tbl sel).isEmpty then
          df.filter fun r =>
            match r.branch_ref with
            | some s => s == sel
            | none => false
        else
          df.filter fun r =>
            match r.branch_ref with
            | some s => (resolveIds tbl sel).contains s
            | none => false
    | none =>
        df.filter fun r =>
          match r.branch_ref with
          | some s => s == sel
          | none => false

/-- The client filter block (src/app.py lines 415-424). "Todos" is the
no-filter sentinel. With no clientes table the block is skipped
entirely; with a table present (name and id columns resolved, which
guess_col guarantees for any loadable table) a nonempty resolved id set
filters by membership, while an empty resolved set leaves the frame
untouched: the inner if len(ids) has no else branch, so no literal
fallback happens there. -/
def clientFilter (df : List TxRec) (sel : String) (cliTbl : Option RefTable) :
    List TxRec :=
  if sel = "Todos" then df
  else
    match cliTbl with
    | none => df
    | some tbl =>
        if (resolveIds tbl sel).isEmpty then df
        else
          df.filter fun r =>
            match r.client_ref with
            | some s => (resolveIds tbl sel).contains s
            | none => false

/-- Minimum over the non-null timestamps, pandas Series.min with skipna. -/
def foldMin : List Int → Option Int
  | [] => none
  | t :: ts =>
      match foldMin ts with
      | none => some t
      | some m => some (min t m)

/-- Maximum over the non-null timestamps, pandas Series.max with skipna. -/
def foldMax : List Int → Option Int
  | [] => none
  | t :: ts =>
      match foldMax ts with
      | none => some t
      | some m => some (max t m)

/-- The default value of the sidebar date input (src/app.py lines
353-368): the calendar days of the minimum and maximum timestamp
(Timestamp.date truncates toward the start of the day, Euclidean
division by minutesPerDay here), or today twice when every timestamp is
NaT. -/
def defaultRange (recs : List TxRec) (today : Int) : Int × Int :=
  match foldMin (recs.filterMap TxRec.dt), foldMax (recs.filterMap TxRec.dt) with
  | some a, some b => (a / minutesPerDay, b / minutesPerDay)
  | _, _ => (today, today)

/-- The whole filter application block (src/app.py lines 394-424): date,
then branch, then client predicate, each guarded by its sentinel. -/
def applyFilters (recs : List TxRec) (range : Option (Int × Int))
    (selAg selClient : String) (agTbl cliTbl : Option RefTable) : List TxRec :=
  clientFilter (branchFilter (dateFilter recs range) selAg agTbl) selClient cliTbl

/-- total_trans (src/app.py line 442): the number of filtered rows. -/
def total_trans (df : List TxRec) : Nat := df.length

/-- total_vol (src/app.py line 443): Series.sum with skipna, i.e. the
sum of the non-null amounts, 0 on an empty or all-null column. -/
def total_vol (df : List TxRec) : ℚ := (df.filterMap TxRec.amt).sum

/-- ticket (src/app.py line 444): volume over count when the count is
positive, 0 otherwise. -/
def ticket (df : List TxRec) : ℚ :=
  if total_trans df > 0 then total_vol df / (total_trans df : ℚ) else 0

/-- aprov_rate (src/app.py line 445): the mean of the boolean approved
column times 100. pandas yields NaN on an empty frame, modelled as
none. -/
def aprov_rate (df : List TxRec) : Option ℚ :=
  if df.length = 0 then none
  else some ((((df.filter TxRec.approved).length : ℚ) / (df.length : ℚ)) * 100)

/-- aprov_display (src/app.py line 467): NaN renders as N/A, a number as
a percentage (the one-decimal float formatting is presentation and is
left as toString here). -/
def aprov_display (rate : Option ℚ) : String :=
  match rate with
  | none => "N/A"
  | some q => toString q ++ "%"

/-- A loaded raw table; its contents are irrelevant to the load claims. -/
abbrev RawTable := List (List String)

/-- One on-disk delimited file, abstracted by what each of the three
pd.read_csv attempts of load_csv_auto would produce on it: none models
the attempt raising. -/
structure CsvFile where
  parseComma : Option RawTable
  parseSemi : Option RawTable
  parseSemiLatin1 : Option RawTable
deriving DecidableEq, Repr

/-- load_csv_auto (src/app.py lines 89-100): none for a missing file,
otherwise try the default comma parse, then sep=";", then sep=";" with
latin1. The third attempt is not wrapped in a try, so its exception
escapes the function, modelled as Except.error. -/
def load_csv_auto (path : Option CsvFile) : Except Unit (Option RawTable) :=
  match path with
  | none => Except.ok none
  | some f =>
      match f.parseComma with
      | some t => Except.ok (some t)
      | none =>
          match f.parseSemi with
          | some t => Except.ok (some t)
          | none =>
              match f.parseSemiLatin1 with
              | some t => Except.ok (some t)
              | none => Except.error ()

/-- What a startup run of src/app.py lines 316-324 ends in. -/
inductive StartupResult where
  | uncaughtException
  | fatalMissingTransactions
  | started (t : RawTable) (a c : Option RawTable)
deriving DecidableEq, Repr

/-- Startup (src/app.py lines 316-324): load_data loads the three files
in order (an uncaught parse exception from any of them aborts the run),
then a missing transactions table triggers st.error plus st.stop — the
fatal user-facing halt — and otherwise the app starts with the optional
tables passed through, none meaning absent. -/
def startup (tf af cf : Option CsvFile) : StartupResult :=
  match load_csv_auto tf with
  | Except.error _ => StartupResult.uncaughtException
  | Except.ok t =>
      match load_csv_auto af with
      | Except.error _ => StartupResult.uncaughtException
      | Except.ok a =>
          match load_csv_auto cf with
          | Except.error _ => StartupResult.uncaughtException
          | Except.ok c =>
              match t with
              | none => StartupResult.fatalMissingTransactions
              | some tt => StartupResult.started tt a c

/-- Split a character list on the slash separator. -/
def splitSlash : List Char → List (List Char)
  | [] => [[]]
  | c :: cs =>
      let r := splitSlash cs
      if c == '/' then [] :: r
      else
        match r with
        | f :: rest => (c :: f) :: rest
        | [] => [[c]]

/-- Read a nonempty all-digit field as a number, none otherwise. -/
def fieldNat : List Char → Option Nat
  | cs =>
      if cs ≠ [] && cs.all Char.isDigit then
        some (cs.foldl (fun n c => 10 * n + (c.toNat - 48)) 0)
      else none

/-- Gregorian leap year test. -/
def isLeapYear (y : Nat) : Bool :=
  (y % 4 == 0 && y % 100 != 0) || y % 400 == 0

/-- Days in a month of the Gregorian calendar. -/
def daysInMonth (y m : Nat) : Nat :=
  if m == 2 then (if isLeapYear y then 29 else 28)
  else if m == 4 || m == 6 || m == 9 || m == 11 then 30
  else 31

/-- A calendar date. -/
structure SimpleDate where
  year : Nat
  month : Nat
  day : Nat
deriving DecidableEq, Repr

/-- Build a date when the components form a valid Gregorian date. -/
def mkDate (y m d : Nat) : Option SimpleDate :=
  if 1 ≤ m && m ≤ 12 && 1 ≤ d && d ≤ daysInMonth y m then
    some (SimpleDate.mk y m d)
  else none

/-- Model of pandas.to_datetime(cell, errors="coerce", dayfirst=True)
(src/app.py lines 123-124 and 341) restricted to numeric a/b/c cells,
the shape the day-first claim is about: read the first field as the day
and the second as the month; when that is not a valid date pandas falls
back to the month-first reading; when neither is valid, or the cell is
not three numeric slash-separated fields, coerce to NaT (none). The
function is total: no cell value raises. -/
def to_datetime_safe (cell : String) : Option SimpleDate :=
  match splitSlash cell.data with
  | [a, b, c] =>
      match fieldNat a, fieldNat b, fieldNat c with
      | some x, some y, some z =>
          match mkDate z y x with
          | some d => some d
          | none => mkDate z x y
      | _, _, _ => none
  | _ => none

/-- Model of pandas.to_numeric(cell, errors="coerce") (src/app.py line
342) on decimal cells: an optional minus sign, digits, optionally a
point and fraction digits; anything else coerces to NaN (none). The
function is total: no cell value raises. -/
def to_numeric_safe (cell : String) : Option ℚ :=
  let core : List Char → Option ℚ := fun cs =>
    match cs.splitOn '.' with
    | [w] => (fieldNat w).map (fun n => (n : ℚ))
    | [w, f] =>
        match fieldNat w, fieldNat f with
        | some n, some fr => some ((n : ℚ) + (fr : ℚ) / ((10 : ℚ) ^ f.length))
        | _, _ => none
    | _ => none
  match cell.data with
  | '-' :: rest => (core rest).map (fun q => -q)
  | cs => core cs

/-- One row fed to the agency ranking: its resolved label (display name
with the raw id as fallback, src/app.py lines 541-553) and its parsed
amount. -/
abbrev LRow := String × Option ℚ

/-- One aggregated ranking row: label, count of non-null amounts, sum of
amounts. -/
abbrev AggRow := String × Nat × ℚ

/-- The non-null amounts of a label's group. -/
def groupVals (rows : List LRow) (l : String) : List ℚ :=
  (rows.filter fun p => p.1 == l).filterMap Prod.snd

/-- The aggregate row of one label: the pandas agg count counts the
non-null _amt cells of the group, sum adds them (0 for an all-null
group). -/
def groupAgg (rows : List LRow) (l : String) : AggRow :=
  (l, (groupVals rows l).length, (groupVals rows l).sum)

/-- Strict lexicographic comparison by code point, the order python and
numpy compare label strings with. -/
def strLtB : List Char → List Char → Bool
  | [], [] => false
  | [], _ :: _ => true
  | _ :: _, [] => false
  | a :: as, b :: bs => Nat.blt a.toNat b.toNat || (a == b && strLtB as bs)

/-- Insert a label into an ascending label list. -/
def insertLbl (x : String) : List String → List String
  | [] => [x]
  | y :: ys => if strLtB x.data y.data then x :: y :: ys else y :: insertLbl x ys

/-- Sort labels ascending. -/
def sortLbls : List String → List String
  | [] => []
  | x :: xs => insertLbl x (sortLbls xs)

/-- The group keys in the order groupby emits them with its default
sort=True: the distinct labels in ascending order. -/
def sortedLabels (rows : List LRow) : List String :=
  sortLbls (rows.map Prod.fst).dedup

/-- The frame groupby("ag_label")["_amt"].agg(["count","sum"]) resets to:
one aggregate row per distinct label, labels ascending. -/
def groupedAggs (rows : List LRow) : List AggRow :=
  (sortedLabels rows).map (groupAgg rows)

/-- The comparison sort_values("n_trans", ascending=False) sorts by:
descending count. The pandas default quicksort leaves the order of ties
unspecified; it is modelled here by a stable sort, the friendliest
reading for the stability claim. -/
def cntGE (a b : AggRow) : Prop := b.2.1 ≤ a.2.1

instance : DecidableRel cntGE := fun a b => Nat.decLe b.2.1 a.2.1

instance : IsTotal AggRow cntGE := ⟨fun a b => Nat.le_total b.2.1 a.2.1⟩

instance : IsTrans AggRow cntGE :=
  ⟨fun _ _ _ h h2 => Nat.le_trans h2 h⟩

/-- ranking6 (src/app.py lines 555-556) and the PDF ranking (line 255):
aggregate per label, then sort descending by count. -/
def ranking6 (rows : List LRow) : List AggRow :=
  List.insertionSort cntGE (groupedAggs rows)

/-- The chart view (src/app.py line 558): the first 10 ranking rows
(their re-sort ascending for the horizontal bar layout is
presentation). -/
def rankingChartView (rows : List LRow) : List AggRow :=
  (ranking6 rows).take 10

/-- The table view (src/app.py line 561): the first 50 ranking rows. -/
def rankingTableView (rows : List LRow) : List AggRow :=
  (ranking6 rows).take 50

/-! Theorems. -/

/-- guess_col agrees with its spec-style reformulation. -/
theorem guess_col_eq_guessColSpec (cols kws : List String) :
    guess_col cols kws = guessColSpec cols kws := by
  induction kws with
  | nil => rfl
  | cons kw rest ih =>
      simp only [guess_col, guessColSpec, List.findSome?_cons]
      cases h : cols.find? (fun c => kwInCol kw c) with
      | some c => rfl
      | none => simpa [guessColSpec] using ih

/-- guess_col on a table with at least one column always yields one of
its columns. -/
theorem guess_col_total (cols kws : List String) (h : cols ≠ []) :
    ∃ c, guess_col cols kws = some c ∧ c ∈ cols := by
  induction kws with
  | nil =>
      cases cols with
      | nil => exact absurd rfl h
      | cons x xs => exact ⟨x, rfl, List.mem_cons_self x xs⟩
  | cons kw rest ih =>
      simp only [guess_col]
      cases hf : cols.find? (fun c => kwInCol kw c) with
      | some c => exact ⟨c, rfl, List.mem_of_find?_eq_some hf⟩
      | none => exact ih

/-- C5: guess_col scans the keyword list in priority order and returns
the first column whose lower-cased name contains the keyword, with the
first column as fallback, so every loadable table (one with at least one
column) gets a mapping; all five role keyword lists are lower case, so
the match is case-insensitive in the column name for every role. -/
theorem guess_col_first_match :
    (∀ cols kws : List String, guess_col cols kws = guessColSpec cols kws)
    ∧ (∀ cols kws : List String, cols ≠ [] →
        ∃ c, guess_col cols kws = some c ∧ c ∈ cols)
    ∧ ((date_keywords ++ amount_keywords ++ agency_keywords ++ client_keywords
          ++ status_keywords).all fun kw => kw.data.all fun ch => !ch.isUpper) = true :=
  ⟨guess_col_eq_guessColSpec, guess_col_total, by decide⟩

/-- C5 witness: the heuristic at work on the single-column header set
used below, with the nonemptiness hypothesis discharged. -/
theorem guess_col_first_match_witness :
    (["valor_transacao"] : List String) ≠ []
    ∧ ∃ c, guess_col ["valor_transacao"] date_keywords = some c
        ∧ c ∈ ["valor_transacao"] :=
  ⟨by decide, guess_col_first_match.2.1 ["valor_transacao"] date_keywords (by decide)⟩

/-- C10: the five role mappings are not injective on every header set:
on the one-column header set x no keyword of any role matches, so all
five roles fall back to the single column. -/
theorem role_mapping_not_injective :
    guess_col ["x"] date_keywords = some "x"
    ∧ guess_col ["x"] amount_keywords = some "x"
    ∧ guess_col ["x"] agency_keywords = some "x"
    ∧ guess_col ["x"] client_keywords = some "x"
    ∧ guess_col ["x"] status_keywords = some "x" := by decide

/-- C8: ambiguous numeric dates resolve day-first (03/04/2024 is April
3rd, 04/03/2024 is March 4th), a cell valid in neither reading and a
non-date cell coerce to null, and unparseable amount cells coerce to
null; both parsers are total functions, the model of the coerce mode
never raising past the normalizer. -/
theorem cell_parsing_dayfirst_coerce :
    to_datetime_safe "03/04/2024" = some ⟨2024, 4, 3⟩
    ∧ to_datetime_safe "04/03/2024" = some ⟨2024, 3, 4⟩
    ∧ to_datetime_safe "31/02/2024" = none
    ∧ to_datetime_safe "not a date" = none
    ∧ to_numeric_safe "100" = some 100
    ∧ to_numeric_safe "abc" = none := by decide

/-- C4 (amended): with an active date range the filter keeps exactly the
records whose timestamp is non-null and lies between midnight of the
start day and midnight of the end day, both endpoint instants inclusive;
null timestamps are excluded. (Records dated on the end day strictly
after midnight fall outside the upper endpoint, see the
counterexample.) -/
theorem date_filter_closed_interval (recs : List TxRec) (s e : Int) (r : TxRec) :
    (r ∈ dateFilter recs (some (s, e)) ↔
      r ∈ recs ∧ ∃ t, r.dt = some t ∧ minutesPerDay * s ≤ t ∧ t ≤ minutesPerDay * e)
    ∧ dateFilter recs none = recs := by
  constructor
  · simp only [dateFilter, List.mem_filter]
    constructor
    · rintro ⟨hr, hp⟩
      refine ⟨hr, ?_⟩
      cases h : r.dt with
      | none => rw [h] at hp; cases hp
      | some t =>
          rw [h] at hp
          simp only [Bool.and_eq_true, decide_eq_true_eq] at hp
          exact ⟨t, rfl, hp.1, hp.2⟩
    · rintro ⟨hr, t, ht, h1, h2⟩
      refine ⟨hr, ?_⟩
      rw [ht]
      simp [h1, h2]
  · rfl

/-- C4 counterexample: a record timestamped one hour past midnight on
day 0 is dated on the end day of the range (0, 0), yet the filter drops
it: the end bound is the midnight instant of the end day, not its end. -/
theorem date_filter_end_day_cex :
    (60 : Int) / minutesPerDay = 0
    ∧ dateFilter [TxRec.mk (some 60) none none none true] (some (0, 0)) = [] := by
  decide

/-- Membership in the resolved id set is exactly having a row of the
reference table pairing the id with the selected display name. -/
theorem mem_resolveIds (tbl : RefTable) (sel id : String) :
    id ∈ resolveIds tbl sel ↔ (id, sel) ∈ tbl := by
  simp only [resolveIds, List.mem_map, List.mem_filter, beq_iff_eq]
  constructor
  · rintro ⟨⟨i, n⟩, ⟨hmem, hn⟩, hi⟩
    cases hn
    cases hi
    exact hmem
  · intro h
    exact ⟨(id, sel), ⟨h, rfl⟩, rfl⟩

/-- The record predicate used by the membership filters. -/
theorem mem_filter_ids (df : List TxRec) (ids : List String) (r : TxRec)
    (proj : TxRec → Option String) :
    (r ∈ df.filter fun x =>
        match proj x with
        | some s => ids.contains s
        | none => false) ↔
      r ∈ df ∧ ∃ s, proj r = some s ∧ s ∈ ids := by
  rw [List.mem_filter]
  refine and_congr_right fun _ => ?_
  cases h : proj r with
  | none => simp [h]
  | some s =>
      constructor
      · intro hs
        exact ⟨s, rfl, List.elem_iff.mp hs⟩
      · rintro ⟨s2, hs2, hmem⟩
        cases hs2
        exact List.elem_iff.mpr hmem

/-- The record predicate used by the literal-comparison filters. -/
theorem mem_filter_literal (df : List TxRec) (sel : String) (r : TxRec)
    (proj : TxRec → Option String) :
    (r ∈ df.filter fun x =>
        match proj x with
        | some s => s == sel
        | none => false) ↔ r ∈ df ∧ proj r = some sel := by
  rw [List.mem_filter]
  refine and_congr_right fun _ => ?_
  cases h : proj r with
  | none => simp [h]
  | some s => simp [h, beq_iff_eq]

/-- C7 (amended): the branch predicate resolves a non-sentinel
selection to every id the reference table pairs with that display name
(a true OR over ids); a nonempty resolved set filters by membership in
it, an empty resolved set falls back to literal comparison of the raw
branch id against the selection, and with no reference table the
literal comparison is used directly. -/
theorem branch_filter_resolution (df : List TxRec) (sel : String) (tbl : RefTable)
    (r : TxRec) (hsel : sel ≠ "Todas") :
    (∀ id, id ∈ resolveIds tbl sel ↔ (id, sel) ∈ tbl)
    ∧ (resolveIds tbl sel ≠ [] →
        (r ∈ branchFilter df sel (some tbl) ↔
          r ∈ df ∧ ∃ s, r.branch_ref = some s ∧ s ∈ resolveIds tbl sel))
    ∧ (resolveIds tbl sel = [] →
        (r ∈ branchFilter df sel (some tbl) ↔ r ∈ df ∧ r.branch_ref = some sel))
    ∧ (r ∈ branchFilter df sel none ↔ r ∈ df ∧ r.branch_ref = some sel) := by
  refine ⟨mem_resolveIds tbl sel, ?_, ?_, ?_⟩
  · intro hne
    rw [branchFilter, if_neg hsel]
    rw [show (resolveIds tbl sel).isEmpty = false from
      List.isEmpty_eq_false.mpr hne]
    exact mem_filter_ids df (resolveIds tbl sel) r TxRec.branch_ref
  · intro hemp
    rw [branchFilter, if_neg hsel]
    rw [show (resolveIds tbl sel).isEmpty = true from
      List.isEmpty_iff.mpr hemp]
    exact mem_filter_literal df sel r TxRec.branch_ref
  · rw [branchFilter, if_neg hsel]
    exact mem_filter_literal df sel r TxRec.branch_ref

/-- C7 counterexample: the reference table exists but pairs no id with
the selected name Norte, so the resolved id set is empty; the claim then
demands an empty result, yet the row whose raw branch id literally
equals Norte is kept by the fallback comparison. -/
theorem branch_filter_empty_resolution_cex :
    resolveIds [("1", "Centro")] "Norte" = []
    ∧ branchFilter [TxRec.mk none none (some "Norte") none true] "Norte"
        (some [("1", "Centro")])
      = [TxRec.mk none none (some "Norte") none true] := by decide

/-- C7 witness: the spec scenario, reference table pairing id 7 with
name Centro, a transaction on branch 7 and the selection Centro: the
record passes the membership filter. -/
theorem branch_filter_resolution_witness :
    TxRec.mk none none (some "7") none true ∈
      branchFilter [TxRec.mk none none (some "7") none true] "Centro"
        (some [("7", "Centro")]) := by
  have h := branch_filter_resolution
    [TxRec.mk none none (some "7") none true] "Centro" [("7", "Centro")]
    (TxRec.mk none none (some "7") none true) (by decide)
  exact (h.2.1 (by decide)).mpr
    ⟨List.mem_singleton_self _, "7", rfl, by decide⟩

/-- C1 (amended): the client predicate shares the first resolution tier
with the branch predicate - a non-sentinel selection resolves through
the reference table to the set of all client ids carrying that display
name, and a nonempty set filters by membership - but not the second: an
empty resolved set leaves the record set untouched instead of falling
back to literal comparison, and with no client table the block is
skipped entirely. -/
theorem client_filter_two_tier (df : List TxRec) (sel : String) (tbl : RefTable)
    (r : TxRec) (hsel : sel ≠ "Todos") :
    clientFilter df sel none = df
    ∧ (resolveIds tbl sel = [] → clientFilter df sel (some tbl) = df)
    ∧ (resolveIds tbl sel ≠ [] →
        (r ∈ clientFilter df sel (some tbl) ↔
          r ∈ df ∧ ∃ s, r.client_ref = some s ∧ s ∈ resolveIds tbl sel)) := by
  refine ⟨?_, ?_, ?_⟩
  · rw [clientFilter, if_neg hsel]
  · intro hemp
    rw [clientFilter, if_neg hsel]
    rw [show (resolveIds tbl sel).isEmpty = true from
      List.isEmpty_iff.mpr hemp]
    rfl
  · intro hne
    rw [clientFilter, if_neg hsel]
    rw [show (resolveIds tbl sel).isEmpty = false from
      List.isEmpty_eq_false.mpr hne]
    exact mem_filter_ids df (resolveIds tbl sel) r TxRec.client_ref

/-- C1 counterexample: the client table exists but pairs no id with the
selected name Bob, so resolution yields zero ids; the claimed literal
fallback would drop the row whose raw client id X differs from Bob, yet
the code keeps it: the empty-resolution case is a no-op for the client
predicate. -/
theorem client_filter_no_fallback_cex :
    resolveIds [("1", "Alice")] "Bob" = []
    ∧ (TxRec.mk none none none (some "X") true).client_ref ≠ some "Bob"
    ∧ clientFilter [TxRec.mk none none none (some "X") true] "Bob"
        (some [("1", "Alice")])
      = [TxRec.mk none none none (some "X") true] := by decide

/-- C1 witness: a client table pairing id 9 with name Ana and a
transaction of client 9 under the selection Ana: the record passes the
membership filter. -/
theorem client_filter_two_tier_witness :
    TxRec.mk none none none (some "9") true ∈
      clientFilter [TxRec.mk none none none (some "9") true] "Ana"
        (some [("9", "Ana")]) := by
  have h := client_filter_two_tier
    [TxRec.mk none none none (some "9") true] "Ana" [("9", "Ana")]
    (TxRec.mk none none none (some "9") true) (by decide)
  exact (h.2.2 (by decide)).mpr
    ⟨List.mem_singleton_self _, "9", rfl, by decide⟩

/-- C6: the scalar KPIs: count is the number of records; the volume sum
skips null amounts, so an all-null set sums to 0; the mean ticket is
volume over count and 0 on an empty set; the approval rate is the mean
of the approved flags times 100, is undefined (none, the NaN model) on
an empty set, and then renders as N/A, never as a zero percentage. -/
theorem kpi_scalar_spec (df : List TxRec) :
    total_trans df = df.length
    ∧ ((∀ r ∈ df, r.amt = none) → total_vol df = 0)
    ∧ (total_trans df ≠ 0 → ticket df = total_vol df / (total_trans df : ℚ))
    ∧ (total_trans df = 0 → ticket df = 0)
    ∧ (df = [] → aprov_rate df = none ∧ aprov_display (aprov_rate df) = "N/A")
    ∧ (df ≠ [] → aprov_rate df
        = some ((((df.filter TxRec.approved).length : ℚ) / (df.length : ℚ)) * 100)) := by
  refine ⟨rfl, ?_, ?_, ?_, ?_, ?_⟩
  · intro h
    have : df.filterMap TxRec.amt = [] := by
      rw [List.filterMap_eq_nil_iff]
      exact h
    rw [total_vol, this, List.sum_nil]
  · intro h
    rw [ticket, if_pos (Nat.pos_of_ne_zero h)]
  · intro h
    rw [ticket, if_neg]
    omega
  · rintro rfl
    exact ⟨rfl, rfl⟩
  · intro h
    rw [aprov_rate, if_neg]
    intro hl
    exact h (List.length_eq_zero.mp hl)

/-- C6 witness: the KPI facts instantiated: an all-null-amount singleton
sums to 0, the empty set has mean 0 and renders its approval rate as
N/A. -/
theorem kpi_scalar_spec_witness :
    total_vol [TxRec.mk none none none none true] = 0
    ∧ ticket [] = 0
    ∧ aprov_display (aprov_rate []) = "N/A" :=
  ⟨(kpi_scalar_spec [TxRec.mk none none none none true]).2.1 (by decide),
   (kpi_scalar_spec []).2.2.2.1 rfl,
   ((kpi_scalar_spec []).2.2.2.2.1 rfl).2⟩

/-- C3 (amended): load_csv_auto retries in the fixed order comma, then
semicolon, then semicolon with latin1, and when all three attempts fail
the exception of the last escapes; a missing file loads as absent. At
startup a missing transactions file is the fatal user-facing halt, a
missing optional file degrades to an absent table, but an optional file
whose three parse attempts all fail aborts the run with the uncaught
exception instead of degrading. -/
theorem load_retry_and_fatality :
    (∀ (f : CsvFile) (t : RawTable), f.parseComma = some t →
        load_csv_auto (some f) = Except.ok (some t))
    ∧ (∀ (f : CsvFile) (t : RawTable), f.parseComma = none → f.parseSemi = some t →
        load_csv_auto (some f) = Except.ok (some t))
    ∧ (∀ (f : CsvFile) (t : RawTable), f.parseComma = none → f.parseSemi = none →
        f.parseSemiLatin1 = some t → load_csv_auto (some f) = Except.ok (some t))
    ∧ (∀ f : CsvFile, f.parseComma = none → f.parseSemi = none →
        f.parseSemiLatin1 = none → load_csv_auto (some f) = Except.error ())
    ∧ load_csv_auto none = Except.ok none
    ∧ (∀ af cf : Option CsvFile,
        (∃ a, load_csv_auto af = Except.ok a) → (∃ c, load_csv_auto cf = Except.ok c) →
        startup none af cf = StartupResult.fatalMissingTransactions)
    ∧ (∀ (f : CsvFile) (t : RawTable), f.parseComma = some t →
        startup (some f) none none = StartupResult.started t none none)
    ∧ (∀ (f g : CsvFile) (cf : Option CsvFile) (t : RawTable), f.parseComma = some t →
        g.parseComma = none → g.parseSemi = none → g.parseSemiLatin1 = none →
        startup (some f) (some g) cf = StartupResult.uncaughtException) := by
  refine ⟨?_, ?_, ?_, ?_, rfl, ?_, ?_, ?_⟩
  · intro f t h1
    simp [load_csv_auto, h1]
  · intro f t h1 h2
    simp [load_csv_auto, h1, h2]
  · intro f t h1 h2 h3
    simp [load_csv_auto, h1, h2, h3]
  · intro f h1 h2 h3
    simp [load_csv_auto, h1, h2, h3]
  · rintro af cf ⟨a, ha⟩ ⟨c, hc⟩
    have h0 : load_csv_auto (none : Option CsvFile) = Except.ok none := rfl
    simp [startup, h0, ha, hc]
  · intro f t h1
    simp [startup, load_csv_auto, h1]
  · intro f g cf t h1 h2 h3 h4
    simp [startup, load_csv_auto, h1, h2, h3, h4]

/-- C3 counterexample: a well-formed transactions file next to an
optional agencias file on which all three parse attempts fail: startup
ends in the uncaught exception, not in a started state with the optional
table degraded to absent. -/
theorem optional_table_parse_fail_halts_cex :
    startup (some (CsvFile.mk (some [["x"]]) none none))
        (some (CsvFile.mk none none none)) none
      = StartupResult.uncaughtException
    ∧ ∀ a c : Option RawTable,
        startup (some (CsvFile.mk (some [["x"]]) none none))
          (some (CsvFile.mk none none none)) none
        ≠ StartupResult.started [["x"]] a c := by
  refine ⟨rfl, ?_⟩
  intro a c h
  exact StartupResult.noConfusion h

/-- C3 witness: the fallback chain reaching the semicolon attempt, and
the fatal halt on a missing transactions file. -/
theorem load_retry_and_fatality_witness :
    load_csv_auto (some (CsvFile.mk none (some [["a"]]) none)) = Except.ok (some [["a"]])
    ∧ startup none none none = StartupResult.fatalMissingTransactions :=
  ⟨load_retry_and_fatality.2.1 (CsvFile.mk none (some [["a"]]) none) [["a"]] rfl rfl,
   load_retry_and_fatality.2.2.2.2.2.1 none none ⟨none, rfl⟩ ⟨none, rfl⟩⟩

/-- foldMin is none exactly on the empty list. -/
theorem foldMin_eq_none_iff (ts : List Int) : foldMin ts = none ↔ ts = [] := by
  cases ts with
  | nil => simp [foldMin]
  | cons t ts =>
      simp only [foldMin]
      cases foldMin ts <;> simp

/-- foldMax is none exactly on the empty list. -/
theorem foldMax_eq_none_iff (ts : List Int) : foldMax ts = none ↔ ts = [] := by
  cases ts with
  | nil => simp [foldMax]
  | cons t ts =>
      simp only [foldMax]
      cases foldMax ts <;> simp

/-- foldMin bounds every element from below. -/
theorem foldMin_le (ts : List Int) (m : Int) (h : foldMin ts = some m) :
    ∀ t ∈ ts, m ≤ t := by
  induction ts generalizing m with
  | nil => cases h
  | cons t ts ih =>
      intro x hx
      rw [foldMin] at h
      cases hf : foldMin ts with
      | none =>
          rw [hf] at h
          injection h with h
          subst h
          have hts : ts = [] := (foldMin_eq_none_iff ts).mp hf
          subst hts
          rcases List.mem_singleton.mp hx with rfl
          exact le_refl x
      | some m2 =>
          rw [hf] at h
          injection h with h
          subst h
          rcases List.mem_cons.mp hx with rfl | hx2
          · exact min_le_left x m2
          · exact le_trans (min_le_right t m2) (ih m2 hf x hx2)

/-- foldMax bounds every element from above. -/
theorem foldMax_ge (ts : List Int) (m : Int) (h : foldMax ts = some m) :
    ∀ t ∈ ts, t ≤ m := by
  induction ts generalizing m with
  | nil => cases h
  | cons t ts ih =>
      intro x hx
      rw [foldMax] at h
      cases hf : foldMax ts with
      | none =>
          rw [hf] at h
          injection h with h
          subst h
          have hts : ts = [] := (foldMax_eq_none_iff ts).mp hf
          subst hts
          rcases List.mem_singleton.mp hx with rfl
          exact le_refl x
      | some m2 =>
          rw [hf] at h
          injection h with h
          subst h
          rcases List.mem_cons.mp hx with rfl | hx2
          · exact le_max_left x m2
          · exact le_trans (ih m2 hf x hx2) (le_max_right t m2)

/-- foldMin returns an element of the list. -/
theorem foldMin_mem (ts : List Int) (m : Int) (h : foldMin ts = some m) : m ∈ ts := by
  induction ts generalizing m with
  | nil => cases h
  | cons t ts ih =>
      rw [foldMin] at h
      cases hf : foldMin ts with
      | none =>
          rw [hf] at h
          injection h with h
          subst h
          exact List.mem_cons_self t ts
      | some m2 =>
          rw [hf] at h
          injection h with h
          subst h
          rcases le_total t m2 with hle | hle
          · rw [min_eq_left hle]
            exact List.mem_cons_self t ts
          · rw [min_eq_right hle]
            exact List.mem_cons_of_mem t (ih m2 hf)

/-- foldMax returns an element of the list. -/
theorem foldMax_mem (ts : List Int) (m : Int) (h : foldMax ts = some m) : m ∈ ts := by
  induction ts generalizing m with
  | nil => cases h
  | cons t ts ih =>
      rw [foldMax] at h
      cases hf : foldMax ts with
      | none =>
          rw [hf] at h
          injection h with h
          subst h
          exact List.mem_cons_self t ts
      | some m2 =>
          rw [hf] at h
          injection h with h
          subst h
          rcases le_total t m2 with hle | hle
          · rw [max_eq_right hle]
            exact List.mem_cons_of_mem t (ih m2 hf)
          · rw [max_eq_left hle]
            exact List.mem_cons_self t ts

/-- C2 (amended): with every predicate at its sentinel (branch Todas,
client Todos, the default full-span date interval) the filter pipeline
returns the canonical set unchanged, provided every record carries a
non-null timestamp sitting exactly on a day boundary; the
counterexample shows the claim fails as stated once a record has a null
timestamp, because the date interval is always active and drops it. -/
theorem all_sentinel_filters_id (recs : List TxRec) (agTbl cliTbl : Option RefTable)
    (today : Int)
    (h : ∀ r ∈ recs, ∃ t, r.dt = some t ∧ t % minutesPerDay = 0) :
    applyFilters recs (some (defaultRange recs today)) "Todas" "Todos" agTbl cliTbl
      = recs := by
  have hbr : ∀ X : List TxRec, branchFilter X "Todas" agTbl = X := by
    intro X
    rw [branchFilter.eq_def]
    exact if_pos rfl
  have hcl : ∀ X : List TxRec, clientFilter X "Todos" cliTbl = X := by
    intro X
    rw [clientFilter.eq_def]
    exact if_pos rfl
  rw [applyFilters, hcl, hbr]
  rcases recs with _ | ⟨r0, rest⟩
  · rfl
  · obtain ⟨t0, ht0, hal0⟩ := h r0 (List.mem_cons_self r0 rest)
    obtain ⟨a, ha⟩ : ∃ a, foldMin ((r0 :: rest).filterMap TxRec.dt) = some a := by
      cases hf : foldMin ((r0 :: rest).filterMap TxRec.dt) with
      | none =>
          have : (r0 :: rest).filterMap TxRec.dt = [] :=
            (foldMin_eq_none_iff _).mp hf
          rw [List.filterMap_cons, ht0] at this
          cases this
      | some a => exact ⟨a, rfl⟩
    obtain ⟨b, hb⟩ : ∃ b, foldMax ((r0 :: rest).filterMap TxRec.dt) = some b := by
      cases hf : foldMax ((r0 :: rest).filterMap TxRec.dt) with
      | none =>
          have : (r0 :: rest).filterMap TxRec.dt = [] :=
            (foldMax_eq_none_iff _).mp hf
          rw [List.filterMap_cons, ht0] at this
          cases this
      | some b => exact ⟨b, rfl⟩
    have hrange : defaultRange (r0 :: rest) today
        = (a / minutesPerDay, b / minutesPerDay) := by
      simp [defaultRange, ha, hb]
    rw [hrange]
    have hall : ∀ t ∈ (r0 :: rest).filterMap TxRec.dt, t % minutesPerDay = 0 := by
      intro t htm
      obtain ⟨r, hr, hrt⟩ := List.mem_filterMap.mp htm
      obtain ⟨t2, ht2, hal⟩ := h r hr
      rw [ht2] at hrt
      injection hrt with hrt
      rw [← hrt]
      exact hal
    have hamod : a % minutesPerDay = 0 := hall a (foldMin_mem _ a ha)
    have hbmod : b % minutesPerDay = 0 := hall b (foldMax_mem _ b hb)
    have hmpd : minutesPerDay = 1440 := rfl
    have hae : minutesPerDay * (a / minutesPerDay) = a := by
      rw [hmpd] at hamod ⊢
      omega
    have hbe : minutesPerDay * (b / minutesPerDay) = b := by
      rw [hmpd] at hbmod ⊢
      omega
    rw [dateFilter]
    apply List.filter_eq_self.mpr
    intro r hr
    obtain ⟨t, ht, _⟩ := h r hr
    have htm : t ∈ (r0 :: rest).filterMap TxRec.dt :=
      List.mem_filterMap.mpr ⟨r, hr, ht⟩
    have h1 : minutesPerDay * (a / minutesPerDay) ≤ t := by
      rw [hae]
      exact foldMin_le _ a ha t htm
    have h2 : t ≤ minutesPerDay * (b / minutesPerDay) := by
      rw [hbe]
      exact foldMax_ge _ b hb t htm
    rw [ht]
    simp [h1, h2]

/-- C2 counterexample: next to one midnight-stamped record, a record
with a null timestamp is dropped by the all-sentinel filter pass, so the
full canonical set is not returned unchanged. -/
theorem all_sentinel_filters_cex :
    applyFilters
        [TxRec.mk none none none none true, TxRec.mk (some 0) none none none true]
        (some (defaultRange
          [TxRec.mk none none none none true, TxRec.mk (some 0) none none none true] 0))
        "Todas" "Todos" none none
      = [TxRec.mk (some 0) none none none true]
    ∧ TxRec.mk none none none none true ∉
        applyFilters
          [TxRec.mk none none none none true, TxRec.mk (some 0) none none none true]
          (some (defaultRange
            [TxRec.mk none none none none true, TxRec.mk (some 0) none none none true] 0))
          "Todas" "Todos" none none := by decide

/-- C2 witness: the identity instantiated on a one-record set with a
day-aligned timestamp. -/
theorem all_sentinel_filters_id_witness :
    applyFilters [TxRec.mk (some 1440) none none none true]
        (some (defaultRange [TxRec.mk (some 1440) none none none true] 0))
        "Todas" "Todos" none none
      = [TxRec.mk (some 1440) none none none true] := by
  refine all_sentinel_filters_id _ none none 0 ?_
  intro r hr
  rw [List.mem_singleton] at hr
  subst hr
  exact ⟨1440, rfl, by decide⟩

/-- Inserting an aggregate row into a list commutes with filtering on a
count value: the insertion walks only past rows of strictly larger
count, which a filter for the inserted row's count value discards
anyway. -/
theorem orderedInsert_filter_eq (x : AggRow) (c : Nat) (l : List AggRow) :
    (List.orderedInsert cntGE x l).filter (fun a => a.2.1 == c)
      = if x.2.1 == c then x :: l.filter (fun a => a.2.1 == c)
        else l.filter (fun a => a.2.1 == c) := by
  induction l with
  | nil => cases hpx : (x.2.1 == c) <;> simp [List.orderedInsert, hpx]
  | cons y ys ih =>
      simp only [List.orderedInsert]
      by_cases hxy : cntGE x y
      · rw [if_pos hxy]
        cases hpx : (x.2.1 == c) <;> simp [List.filter_cons, hpx]
      · rw [if_neg hxy]
        have hlt : x.2.1 < y.2.1 := Nat.lt_of_not_le hxy
        cases hpx : (x.2.1 == c) with
        | false => cases hpy : (y.2.1 == c) <;> simp [List.filter_cons, hpx, hpy, ih]
        | true =>
            have hxc : x.2.1 = c := beq_iff_eq.mp hpx
            have hpy : (y.2.1 == c) = false := beq_eq_false_iff_ne.mpr (by omega)
            simp [List.filter_cons, hpx, hpy, ih]

/-- The count sort commutes with filtering on a count value: within one
count value the sorted output keeps exactly the input order (the
stability of the modelled sort). -/
theorem insertionSort_filter_eq (c : Nat) (l : List AggRow) :
    (List.insertionSort cntGE l).filter (fun a => a.2.1 == c)
      = l.filter (fun a => a.2.1 == c) := by
  induction l with
  | nil => rfl
  | cons a l ih =>
      rw [List.insertionSort, orderedInsert_filter_eq, ih, List.filter_cons]

/-- C9 (amended): the ranking aggregates count and sum per resolved
label and is sorted descending by count (cntGE); it is a permutation of
the per-label aggregate list, whose order is the grouping key order -
labels ascending, the pandas groupby default - rather than input
appearance order; under the stable model of the sort, rows of equal
count keep exactly that ascending-label order (the filter equations);
the chart view is the first 10 rows and the table view the first 50. -/
theorem ranking_sorted_views (rows : List LRow) :
    List.Sorted cntGE (ranking6 rows)
    ∧ List.Perm (ranking6 rows) (groupedAggs rows)
    ∧ (∀ c : Nat, (ranking6 rows).filter (fun a => a.2.1 == c)
        = (groupedAggs rows).filter (fun a => a.2.1 == c))
    ∧ rankingChartView rows = (ranking6 rows).take 10
    ∧ rankingTableView rows = (ranking6 rows).take 50 :=
  ⟨List.sorted_insertionSort cntGE (groupedAggs rows),
   List.perm_insertionSort cntGE (groupedAggs rows),
   fun c => insertionSort_filter_eq c (groupedAggs rows), rfl, rfl⟩

/-- C9 counterexample: two labels with equal counts arrive in input
order b then a, yet the ranking lists a before b: ties follow the
ascending label order of the grouping step, not stable input order. -/
theorem ranking_tie_order_cex :
    ([("b", none), ("a", none)] : List LRow).map Prod.fst = ["b", "a"]
    ∧ ranking6 [("b", none), ("a", none)] = [("a", 0, 0), ("b", 0, 0)]
    ∧ ranking6 [("b", none), ("a", none)] ≠ [("b", 0, 0), ("a", 0, 0)] := by decide

end BanVic
